import Mathlib

/-!
Shallow embedding of `scripts/generate_index2.py`, the static index-page
generator: the HTML sanitizer event handlers, the field formatters
(duration, date, keywords, title default), the literal first-occurrence
template substitution, the tag-search visibility toggle and the
copyright-year substitution, together with theorems settling the spec
claims about them.

Strings are modelled as Lean `String` (logically a list of code points),
matching Python's code-point view of `str`.  The Python string
primitives used by the script (`strip`, `lower`, `split`, `startswith`,
`isdigit`, `int`, `html.escape`) are re-implemented here over the
character list so that every definition evaluates by kernel reduction.
Python's unicode-wide notions of whitespace, digits and case folding are
modelled by their ASCII restrictions, which coincide on every string the
script manipulates.
-/

namespace GenerateIndex2

/-! ### Python-style string primitives -/

/-- `startsWithL pat l` : does the list `l` start with `pat`?
(Python `str.startswith`, on code-point lists.) -/
def startsWithL : List Char → List Char → Bool
  | [], _ => true
  | _ :: _, [] => false
  | p :: ps, c :: cs => if p = c then startsWithL ps cs else false

/-- Split a code-point list at every character satisfying `p`, keeping
empty pieces, as Python `re.split` / `str.split` with a character class
does. -/
def splitOnP (p : Char → Bool) : List Char → List (List Char)
  | [] => [[]]
  | c :: cs =>
    let r := splitOnP p cs
    if p c then [] :: r
    else
      match r with
      | [] => [[c]]
      | h :: t => (c :: h) :: t

/-- Python `str.split(sep)` / `re.split` on a character predicate. -/
def pySplit (s : String) (p : Char → Bool) : List String :=
  (splitOnP p s.data).map (fun l => ⟨l⟩)

/-- Python `str.strip()`: remove leading and trailing whitespace
(ASCII restriction of Python's unicode whitespace). -/
def pyStrip (s : String) : String :=
  ⟨((s.data.dropWhile Char.isWhitespace).reverse.dropWhile Char.isWhitespace).reverse⟩

/-- Python `str.lower()` (ASCII restriction). -/
def pyLower (s : String) : String :=
  ⟨s.data.map Char.toLower⟩

/-- Python `str.startswith(pre)`. -/
def pyStartsWith (s pre : String) : Bool :=
  startsWithL pre.data s.data

/-- Python `str.isdigit()` (ASCII restriction): non-empty and all
characters are decimal digits. -/
def pyIsDigit (s : String) : Bool :=
  !s.data.isEmpty && s.data.all Char.isDigit

/-- Decimal value of a digit string (the value Python `int(s)` returns
on a string satisfying `isdigit`). -/
def digitsToNat (l : List Char) : Nat :=
  l.foldl (fun n c => n * 10 + (c.toNat - '0'.toNat)) 0

/-- Python `int(s)` restricted to digit strings. -/
def pyInt (s : String) : Nat :=
  digitsToNat s.data

/-- Python `html.escape(s, quote)`: `&`, `<`, `>` always escaped;
`"` and `'` additionally escaped when `quote` is true.  The sequential
`str.replace` passes of the library implementation act on disjoint
source characters, so they equal this single character-wise map. -/
def html_escape (s : String) (quote : Bool) : String :=
  String.join (s.data.map (fun c =>
    if c = '&' then "&amp;"
    else if c = '<' then "&lt;"
    else if c = '>' then "&gt;"
    else if quote && c = '"' then "&quot;"
    else if quote && c = '\'' then "&#x27;"
    else String.singleton c))

/-! ### `format_duration` (lines 175-208) -/

/-- The length-dispatch over the parsed `ints` list:
`H:M:S`, `M:S`, `S`, and `0` for any other arity (source lines 192-197,
where `total_seconds` keeps its initial `0`). -/
def duration_combine : List Nat → Nat
  | [a, b, c] => a * 3600 + b * 60 + c
  | [a, b] => a * 60 + b
  | [a] => a
  | _ => 0

/-- The `ints` list of source lines 185-191: split on `:`, strip each
part, parse digit parts, default non-digit parts to `0`. -/
def duration_ints (raw : String) : List Nat :=
  ((pySplit raw (fun c => c = ':')).map pyStrip).map
    (fun part => if pyIsDigit part then pyInt part else 0)

/-- `total_seconds` of source lines 181-197. -/
def duration_total (raw : String) : Nat :=
  if pyIsDigit raw then pyInt raw else duration_combine (duration_ints raw)

/-- `format_duration` (source lines 175-208).  `none` stands for a
Python `None` argument. -/
def format_duration (value : Option String) : String :=
  match value with
  | none => ""
  | some v =>
    if v = "" then ""
    else
      let raw := pyStrip v
      if raw = "" then ""
      else
        let total := duration_total raw
        let hours := total / 3600
        let minutes := (total % 3600) / 60
        let seconds := total % 60
        let segments :=
          (if hours ≠ 0 then [toString hours ++ " 小時"] else [])
          ++ (if minutes ≠ 0 then [toString minutes ++ " 分"] else [])
          ++ (if hours = 0 ∧ seconds ≠ 0 then [toString seconds ++ " 秒"] else [])
        String.intercalate " " segments

/-- The segment list exactly as the spec words it: hours and minutes
segments whenever nonzero, a seconds segment exactly when hours are zero
and seconds are nonzero. -/
def durationSegmentsSpec (h m s : Nat) : List String :=
  (if h ≠ 0 then [toString h ++ " 小時"] else [])
  ++ (if m ≠ 0 then [toString m ++ " 分"] else [])
  ++ (if h = 0 ∧ s ≠ 0 then [toString s ++ " 秒"] else [])

/-! ### `HTMLSanitizer` (lines 28-122)

The Python class extends `html.parser.HTMLParser`, whose tokenizer
turns the input text into a stream of events (start tags, end tags,
self-closing tags, text data, entity and character references,
comments) with tag and attribute names already lower-cased.  The
tokenizer lives in the standard library; the sanitizer itself is the
set of event handlers plus the mutable `_parts` / `_skip_stack` state,
embedded here as a step function over that event stream. -/

/-- One tokenizer event delivered to the sanitizer's handlers. -/
inductive HEvent where
  | startTag (tag : String) (attrs : List (String × Option String))
  | endTag (tag : String)
  | startEndTag (tag : String) (attrs : List (String × Option String))
  | data (s : String)
  | entityRef (name : String)
  | charRef (name : String)
  | comment (s : String)
deriving DecidableEq

/-- The sanitizer's mutable state: emitted `_parts` and the
`_skip_stack` of forbidden tags currently suppressing output.  Python
appends and pops at the end of its list; here the head of `skipStack`
is the top of the stack. -/
structure SanState where
  parts : List String
  skipStack : List String
deriving DecidableEq

/-- `FORBIDDEN_TAGS` (source line 31). -/
def FORBIDDEN_TAGS : List String :=
  ["script", "style", "iframe", "object", "embed", "link"]

/-- The attribute-filtering loop body shared by `handle_starttag`
(lines 46-57) and `handle_startendtag` (lines 75-86): skip valueless
attributes, `on*` names, `javascript:` values of `href`/`src`, and
`style`; keep the rest. -/
def attrFilterStep (acc : List (String × String)) (p : String × Option String) :
    List (String × String) :=
  match p.2 with
  | none => acc
  | some value =>
    let lowerName := pyLower p.1
    if pyStartsWith lowerName "on" then acc
    else if (lowerName = "href" ∨ lowerName = "src")
        ∧ pyStartsWith (pyLower value) "javascript:" then acc
    else if lowerName = "style" then acc
    else acc ++ [(p.1, value)]

/-- `safe_attrs` as accumulated by the loop of lines 46-57 / 75-86. -/
def safe_attrs (attrs : List (String × Option String)) : List (String × String) :=
  attrs.foldl attrFilterStep []

/-- `attr_text` (lines 58-60 / 87-89): serialized kept attributes, each
value HTML-escaped with quote escaping. -/
def attr_text (attrs : List (String × Option String)) : String :=
  String.join ((safe_attrs attrs).map
    (fun p => " " ++ p.1 ++ "=\"" ++ html_escape p.2 true ++ "\""))

/-- `handle_starttag` (lines 38-61). -/
def handle_starttag (st : SanState) (tag : String)
    (attrs : List (String × Option String)) : SanState :=
  if st.skipStack ≠ [] then
    if tag ∈ FORBIDDEN_TAGS then { st with skipStack := tag :: st.skipStack } else st
  else if tag ∈ FORBIDDEN_TAGS then { st with skipStack := tag :: st.skipStack }
  else { st with parts := st.parts ++ ["<" ++ tag ++ attr_text attrs ++ ">"] }

/-- `handle_endtag` (lines 63-70). -/
def handle_endtag (st : SanState) (tag : String) : SanState :=
  match st.skipStack with
  | top :: rest => if tag = top then { st with skipStack := rest } else st
  | [] =>
    if tag ∈ FORBIDDEN_TAGS then st
    else { st with parts := st.parts ++ ["</" ++ tag ++ ">"] }

/-- `handle_startendtag` (lines 72-90). -/
def handle_startendtag (st : SanState) (tag : String)
    (attrs : List (String × Option String)) : SanState :=
  if st.skipStack ≠ [] ∨ tag ∈ FORBIDDEN_TAGS then st
  else { st with parts := st.parts ++ ["<" ++ tag ++ attr_text attrs ++ "/>"] }

/-- `handle_data` (lines 92-96). -/
def handle_data (st : SanState) (s : String) : SanState :=
  if st.skipStack ≠ [] then st
  else if s ≠ "" then { st with parts := st.parts ++ [html_escape s true] }
  else st

/-- `handle_entityref` (lines 98-101). -/
def handle_entityref (st : SanState) (name : String) : SanState :=
  if st.skipStack ≠ [] then st
  else { st with parts := st.parts ++ ["&" ++ name ++ ";"] }

/-- `handle_charref` (lines 103-106). -/
def handle_charref (st : SanState) (name : String) : SanState :=
  if st.skipStack ≠ [] then st
  else { st with parts := st.parts ++ ["&#" ++ name ++ ";"] }

/-- Dispatch one tokenizer event to its handler (`handle_comment`
drops comments, line 108-110). -/
def sanStep (st : SanState) (ev : HEvent) : SanState :=
  match ev with
  | .startTag tag attrs => handle_starttag st tag attrs
  | .endTag tag => handle_endtag st tag
  | .startEndTag tag attrs => handle_startendtag st tag attrs
  | .data s => handle_data st s
  | .entityRef name => handle_entityref st name
  | .charRef name => handle_charref st name
  | .comment _ => st

/-- Feed a whole event stream through the sanitizer. -/
def runEvents (st : SanState) (evs : List HEvent) : SanState :=
  evs.foldl sanStep st

/-- `get_html` (lines 112-113) applied after running a stream from the
fresh state of `__init__`: the sanitizer's output for that stream. -/
def sanitizeEvents (evs : List HEvent) : String :=
  pyStrip (String.join (runEvents ⟨[], []⟩ evs).parts)

/-! ### `parse_keywords` (lines 125-136) -/

/-- One iteration of the `for raw in re.split(...)` loop of
`parse_keywords`: strip, skip empties and already-seen keywords, else
append.  The Python `seen` set always holds exactly the elements of the
accumulated list, so membership in the accumulator models it. -/
def addKeyword (acc : List String) (raw : String) : List String :=
  let keyword := pyStrip raw
  if keyword = "" ∨ keyword ∈ acc then acc else acc ++ [keyword]

/-- `parse_keywords` (source lines 125-136). -/
def parse_keywords (value : Option String) : List String :=
  match value with
  | none => []
  | some v =>
    if v = "" then []
    else (pySplit v (fun c => c = ',' ∨ c = '，')).foldl addKeyword []

/-! ### `format_date` (lines 143-172) -/

/-- `WEEKDAY_MAP` (source lines 143-151), as a partial lookup table
keyed by Python's Monday-is-0 weekday index. -/
def WEEKDAY_MAP : Nat → Option String
  | 0 => some "週一"
  | 1 => some "週二"
  | 2 => some "週三"
  | 3 => some "週四"
  | 4 => some "週五"
  | 5 => some "週六"
  | 6 => some "週日"
  | _ => none

/-- Modelled from the spec: the outcome of
`email.utils.parsedate_to_datetime` followed by `astimezone(TAIPEI_TZ)`
(source lines 160-168), which live in the Python standard library, not
in this repository.  `failure` is a raised `TypeError`/`ValueError`,
`noneResult` the legacy `None` return, and `parsed` carries the
year/month/day and Monday-is-0 weekday of the converted datetime. -/
inductive DateParseOutcome where
  | failure
  | noneResult
  | parsed (year month day weekday : Nat)
deriving DecidableEq

/-- `format_date` (source lines 157-172), embedded over the outcome of
the parse-and-convert step (`parse`).  It is a total function: every
parse outcome yields a string, mirroring that the Python function
catches the parse exceptions and never raises. -/
def format_date (parse : String → DateParseOutcome) (value : Option String) : String :=
  match value with
  | none => ""
  | some v =>
    if v = "" then ""
    else
      match parse v with
      | .failure => v
      | .noneResult => v
      | .parsed y m d w =>
        match WEEKDAY_MAP w with
        | none => v
        | some wd => toString y ++ "年" ++ toString m ++ "月" ++ toString d ++ "日 " ++ wd

/-! ### Episode title extraction (line 319) -/

/-- Python's `x or default` on an optional string: the default replaces
`None` and the empty (falsy) string, nothing else. -/
def pyOr (s : Option String) (d : String) : String :=
  match s with
  | none => d
  | some v => if v = "" then d else v

/-- `(item.findtext("title") or "未命名集數").strip()` (source line 319):
the title of the constructed `Episode`. -/
def extract_title (findtextResult : Option String) : String :=
  pyStrip (pyOr findtextResult "未命名集數")

/-! ### Template substitution (lines 371-444)

The `replace` helper wraps `re.sub(pattern, repl, text, count=1)`:
replace the leftmost match of the pattern, or return the text unchanged
when there is no match.  It is embedded here for literal patterns
(the tag-search anchor of lines 439-444 is literal); `matchCopyright`
below additionally models the one year-dependent pattern. -/

/-- Leftmost occurrence of `pat` in `text`: `some (pre, post)` with
`text = pre ++ pat ++ post` and no earlier occurrence, else `none`. -/
def findSplit (pat : List Char) : List Char → Option (List Char × List Char)
  | [] => if startsWithL pat [] then some ([], []) else none
  | c :: rest =>
    if startsWithL pat (c :: rest) then some ([], (c :: rest).drop pat.length)
    else (findSplit pat rest).map (fun pr => (c :: pr.1, pr.2))

/-- Replace the leftmost occurrence of `pat` by `repl`, or return
`text` unchanged when `pat` does not occur: the semantics of
`re.sub(pattern, repl, text, count=1)` for a literal pattern. -/
def replaceFirst (pat repl text : List Char) : List Char :=
  match findSplit pat text with
  | none => text
  | some pr => pr.1 ++ repl ++ pr.2

/-- String-level wrapper for `replace` (source lines 371-372) on a
literal pattern. -/
def re_sub_first (pattern repl text : String) : String :=
  ⟨replaceFirst pattern.data repl.data text.data⟩

/-! ### Tag-search visibility toggle (lines 439-444) -/

/-- The literal pattern of the tag-search substitution. -/
def TAG_SEARCH_HIDDEN : String :=
  "<div class=\"tag-search\" id=\"tag-search\" hidden>"

/-- Its replacement: the same element without the `hidden` attribute. -/
def TAG_SEARCH_VISIBLE : String :=
  "<div class=\"tag-search\" id=\"tag-search\">"

/-- Lines 439-444: when the global keyword set `all_keywords` (the
union of all episodes' keyword lists, here a list whose emptiness
matches the Python set's falsiness) is non-empty, replace the first
occurrence of the hidden tag-search anchor by the visible one;
otherwise leave the document untouched. -/
def toggle_tag_search (all_keywords : List String) (result : String) : String :=
  if all_keywords ≠ [] then re_sub_first TAG_SEARCH_HIDDEN TAG_SEARCH_VISIBLE result
  else result

/-! ### Copyright-year substitution (lines 350 and 420-424)

`now_year = datetime.now(TAIPEI_TZ).year` feeds the replacement string
`f'© {now_year}'` for the pattern
`©\s*<span id="copyright-year">.*?</span>` — the one substitution whose
output depends on the wall clock rather than the input files.  The
regex is embedded directly: leftmost position where `©` is followed by
whitespace, the literal span-open text and a shortest run ending at the
literal `</span>`. -/

/-- The literal fragments of the copyright pattern. -/
def COPY_SPAN_OPEN : List Char := "<span id=\"copyright-year\">".data

/-- The closing literal of the copyright pattern. -/
def COPY_SPAN_CLOSE : List Char := "</span>".data

/-- Try to match the copyright pattern at the head of `text`; on
success return the remainder after the match.  `\s*` is maximal-munch
here, which agrees with the regex because the following literal starts
with `<`, a non-whitespace character. -/
def tryCopyrightAt : List Char → Option (List Char)
  | [] => none
  | c :: rest =>
    if c = '©' then
      let afterSpaces := rest.dropWhile Char.isWhitespace
      if startsWithL COPY_SPAN_OPEN afterSpaces then
        match findSplit COPY_SPAN_CLOSE (afterSpaces.drop COPY_SPAN_OPEN.length) with
        | some pr => some pr.2
        | none => none
      else none
    else none

/-- Leftmost match of the copyright pattern: `some (pre, post)` where
`pre` is the text before the match and `post` the text after it. -/
def matchCopyright : List Char → Option (List Char × List Char)
  | [] => none
  | c :: rest =>
    match tryCopyrightAt (c :: rest) with
    | some post => some ([], post)
    | none => (matchCopyright rest).map (fun pr => (c :: pr.1, pr.2))

/-- The copyright substitution of lines 420-424, with the current
Taipei year (line 350) passed explicitly. -/
def substCopyright (nowYear : Nat) (text : String) : String :=
  match matchCopyright text.data with
  | none => text
  | some pr => ⟨pr.1 ++ ("© " ++ toString nowYear).data ++ pr.2⟩

/-! ### Spec-side predicates used to state the claims -/

/-- The spec's three drop rules for an attribute with a value, negated:
an attribute is keepable when its name does not start (case-insensitively)
with `on`, it is not an `href`/`src` whose value starts
(case-insensitively) with `javascript:`, and its name is not `style`. -/
def keepableAttr (name value : String) : Prop :=
  ¬ pyStartsWith (pyLower name) "on" = true
  ∧ ¬ ((pyLower name = "href" ∨ pyLower name = "src")
      ∧ pyStartsWith (pyLower value) "javascript:" = true)
  ∧ pyLower name ≠ "style"

instance (name value : String) : Decidable (keepableAttr name value) := by
  unfold keepableAttr
  infer_instance

/-- The claim's hypothesis for the zero-duration property: under the
parse of `format_duration`, every parsed component of `raw` is zero or
non-numeric (so contributes zero). -/
def allComponentsZero (raw : String) : Bool :=
  if pyIsDigit raw then pyInt raw == 0
  else ((pySplit raw (fun c => c = ':')).map pyStrip).all
    (fun part => !pyIsDigit part || pyInt part == 0)

/-! ## Theorems -/

/-! ### Helper lemmas -/

lemma foldl_addKeyword_invariant (l : List String) (acc : List String)
    (h1 : acc.Nodup) (h2 : ∀ k ∈ acc, k ≠ "") :
    (l.foldl addKeyword acc).Nodup ∧ ∀ k ∈ l.foldl addKeyword acc, k ≠ "" := by
  induction l generalizing acc with
  | nil => exact ⟨h1, h2⟩
  | cons a l ih =>
    simp only [List.foldl_cons]
    refine ih (addKeyword acc a) ?_ ?_
    · by_cases hc : pyStrip a = "" ∨ pyStrip a ∈ acc
      · simpa [addKeyword, hc] using h1
      · push_neg at hc
        simp [addKeyword, hc.1, hc.2, List.nodup_append, h1]
    · by_cases hc : pyStrip a = "" ∨ pyStrip a ∈ acc
      · simpa [addKeyword, hc] using h2
      · push_neg at hc
        intro k hk
        simp [addKeyword, hc.1, hc.2] at hk
        rcases hk with hk | rfl
        · exact h2 k hk
        · exact hc.1

lemma duration_combine_zero (l : List Nat) (h : ∀ x ∈ l, x = 0) :
    duration_combine l = 0 := by
  rcases l with _ | ⟨a, _ | ⟨b, _ | ⟨c, _ | ⟨d, rest⟩⟩⟩⟩
  · rfl
  · simp [duration_combine, h a (by simp)]
  · simp [duration_combine, h a (by simp), h b (by simp)]
  · simp [duration_combine, h a (by simp), h b (by simp), h c (by simp)]
  · rfl

lemma duration_total_zero (raw : String) (hz : allComponentsZero raw = true) :
    duration_total raw = 0 := by
  unfold allComponentsZero at hz
  unfold duration_total
  by_cases hd : pyIsDigit raw = true
  · simp only [hd, if_true] at hz ⊢
    simpa using hz
  · simp only [hd, Bool.false_eq_true, if_false] at hz ⊢
    apply duration_combine_zero
    intro x hx
    unfold duration_ints at hx
    rcases List.mem_map.mp hx with ⟨part, hpart, hfx⟩
    have hall := List.all_eq_true.mp hz part hpart
    by_cases hp : pyIsDigit part = true
    · simp only [hp, Bool.not_true, Bool.false_or, beq_iff_eq] at hall
      simp only [hp, if_true] at hfx
      rw [← hfx, hall]
    · simp only [hp, Bool.false_eq_true, if_false] at hfx
      exact hfx.symm

/-! ### C3 — duration segment rendering -/

/-- C3 (counterexample): the claim states `format_duration("90") = "1 分"`,
but the code renders 90 seconds as one minute and thirty seconds — with
zero hours and nonzero leftover seconds the seconds segment is shown,
exactly as the claim's own general rule requires. -/
theorem duration_ninety_counterexample :
    format_duration (some "90") = "1 分 30 秒" ∧ ("1 分 30 秒" : String) ≠ "1 分" := by
  constructor
  · decide
  · decide

/-- C3 (amended): for every input string, `format_duration` renders the
segment list exactly as the spec's general rule dictates — hours and
minutes segments when nonzero, a seconds segment exactly when hours are
zero and seconds nonzero — and on the concrete examples
`"3661" ↦ "1 小時 1 分"`, `"0:5" ↦ "5 秒"`, `"90" ↦ "1 分 30 秒"`,
`"" ↦ ""`, with `None ↦ ""`. -/
theorem format_duration_spec :
    (∀ v : String, format_duration (some v) =
        String.intercalate " " (durationSegmentsSpec
          (duration_total (pyStrip v) / 3600)
          (duration_total (pyStrip v) % 3600 / 60)
          (duration_total (pyStrip v) % 60)))
    ∧ format_duration none = ""
    ∧ format_duration (some "3661") = "1 小時 1 分"
    ∧ format_duration (some "0:5") = "5 秒"
    ∧ format_duration (some "90") = "1 分 30 秒"
    ∧ format_duration (some "") = "" := by
  refine ⟨?_, rfl, by decide, by decide, by decide, rfl⟩
  intro v
  by_cases h0 : v = ""
  · subst h0; rfl
  · by_cases h1 : pyStrip v = ""
    · simp only [format_duration, h0, if_false, h1, if_true]
      decide
    · simp [format_duration, durationSegmentsSpec, h0, h1]

/-! ### C10 — zero-total durations render as the empty string -/

/-- C10: a non-empty duration string all of whose parsed components are
zero or non-numeric yields the empty string — no `"0"`-valued segment,
and (the embedding being a total function) no error. -/
theorem duration_zero_spec (v : String) (h0 : v ≠ "")
    (hz : allComponentsZero (pyStrip v) = true) :
    format_duration (some v) = "" := by
  by_cases h1 : pyStrip v = ""
  · simp [format_duration, h0, h1]
  · have ht := duration_total_zero _ hz
    simp [format_duration, h0, h1, ht]
    rfl

/-- C10 (witness): the property at the concrete input `"0:00"`. -/
theorem duration_zero_spec_witness :
    ("0:00" : String) ≠ "" ∧ allComponentsZero (pyStrip "0:00") = true
    ∧ format_duration (some "0:00") = "" :=
  ⟨by decide, by decide, duration_zero_spec "0:00" (by decide) (by decide)⟩

/-! ### C5 — keyword parsing -/

/-- C5: `parse_keywords` never yields duplicates or empty strings (so
every constructed `Episode`'s keyword list, being its output, contains
neither), and on `"A, B,A ,，C"` it yields `["A", "B", "C"]` — split on
both comma variants, trimmed, blanks dropped, first-seen order kept. -/
theorem parse_keywords_spec :
    (∀ v : Option String, (parse_keywords v).Nodup)
    ∧ (∀ v : Option String, ∀ k ∈ parse_keywords v, k ≠ "")
    ∧ parse_keywords (some "A, B,A ,，C") = ["A", "B", "C"] := by
  have base : ∀ v : Option String,
      (parse_keywords v).Nodup ∧ ∀ k ∈ parse_keywords v, k ≠ "" := by
    intro v
    match v with
    | none => simp [parse_keywords]
    | some s =>
      by_cases h : s = ""
      · simp [parse_keywords, h]
      · simp only [parse_keywords, h, if_false]
        exact foldl_addKeyword_invariant _ [] (by simp) (by simp)
  exact ⟨fun v => (base v).1, fun v => (base v).2, by decide⟩

/-- C5 (witness): the no-empty-keyword conjunct applied to the member
`"A"` of the concrete output. -/
theorem parse_keywords_spec_witness :
    ("A" : String) ∈ parse_keywords (some "A, B,A ,，C") ∧ ("A" : String) ≠ "" :=
  ⟨by decide, parse_keywords_spec.2.1 (some "A, B,A ,，C") "A" (by decide)⟩

/-! ### C6 — episode title default -/

/-- C6 (counterexample): a whitespace-only title is blank after
trimming, yet the extracted title is the empty string, not the
placeholder — the code tests falsiness before stripping. -/
theorem title_blank_counterexample :
    pyStrip " " = "" ∧ extract_title (some " ") = ""
    ∧ extract_title (some " ") ≠ "未命名集數" := by
  refine ⟨rfl, rfl, ?_⟩
  decide

/-- C6 (amended): the placeholder is used exactly when the title field
is absent or the raw string is empty before trimming; any other title
is returned trimmed (so a whitespace-only title yields `""`). -/
theorem title_default_amended :
    extract_title none = "未命名集數"
    ∧ extract_title (some "") = "未命名集數"
    ∧ ∀ v : String, v ≠ "" → extract_title (some v) = pyStrip v := by
  refine ⟨rfl, rfl, ?_⟩
  intro v h
  simp [extract_title, pyOr, h]

/-- C6 (witness): the non-empty branch at `" T "`. -/
theorem title_default_amended_witness :
    (" T " : String) ≠ "" ∧ extract_title (some " T ") = pyStrip " T " :=
  ⟨by decide, title_default_amended.2.2 " T " (by decide)⟩

/-! ### C4 — date formatting fallbacks -/

/-- C4: `format_date` returns `""` on absent/empty input and the input
unchanged when the parse-and-convert step fails or returns `None`
(being a total function, it never raises); on success it renders
`<year>年<month>月<day>日 <weekday>` through the 7-entry weekday table,
which is populated for every index below 7, and falls back to the
unmodified input when the index lies outside the table. -/
theorem format_date_fallback :
    (∀ parse : String → DateParseOutcome,
      format_date parse none = "" ∧ format_date parse (some "") = "")
    ∧ (∀ (parse : String → DateParseOutcome) (v : String), v ≠ "" →
        (parse v = DateParseOutcome.failure ∨ parse v = DateParseOutcome.noneResult) →
        format_date parse (some v) = v)
    ∧ (∀ (parse : String → DateParseOutcome) (v : String) (y m d w : Nat) (wd : String),
        v ≠ "" → parse v = DateParseOutcome.parsed y m d w → WEEKDAY_MAP w = some wd →
        format_date parse (some v) =
          toString y ++ "年" ++ toString m ++ "月" ++ toString d ++ "日 " ++ wd)
    ∧ (∀ w : Nat, w < 7 → (WEEKDAY_MAP w).isSome = true)
    ∧ (∀ (parse : String → DateParseOutcome) (v : String) (y m d w : Nat),
        v ≠ "" → parse v = DateParseOutcome.parsed y m d w → WEEKDAY_MAP w = none →
        format_date parse (some v) = v) := by
  refine ⟨?_, ?_, ?_, by decide, ?_⟩
  · intro parse
    exact ⟨rfl, rfl⟩
  · intro parse v hv hp
    rcases hp with hp | hp <;> simp [format_date, hv, hp]
  · intro parse v y m d w wd hv hp hw
    simp [format_date, hv, hp, hw]
  · intro parse v y m d w hv hp hw
    simp [format_date, hv, hp, hw]

/-- C4 (witness): the fallback branch on an unparseable string and the
success branch on a parsed Wednesday date. -/
theorem format_date_fallback_witness :
    format_date (fun _ => DateParseOutcome.failure) (some "not a date") = "not a date"
    ∧ format_date (fun _ => DateParseOutcome.parsed 2024 5 1 2)
        (some "Wed, 01 May 2024 08:00:00 +0800") = "2024年5月1日 週三" := by
  constructor
  · exact format_date_fallback.2.1 _ "not a date" (by decide) (Or.inl rfl)
  · have h := format_date_fallback.2.2.1 (fun _ => DateParseOutcome.parsed 2024 5 1 2)
      "Wed, 01 May 2024 08:00:00 +0800" 2024 5 1 2 "週三" (by decide) rfl rfl
    rw [h]
    rfl

/-! ### C1 — forbidden-element suppression -/

lemma sanStep_parts_of_skip (st : SanState) (ev : HEvent) (h : st.skipStack ≠ []) :
    (sanStep st ev).parts = st.parts := by
  obtain ⟨ps, stack⟩ := st
  cases stack with
  | nil => simp at h
  | cons t rest =>
    cases ev with
    | startTag tag attrs =>
      simp only [sanStep, handle_starttag]
      rw [if_pos (by simp)]
      split <;> rfl
    | endTag tag =>
      simp only [sanStep, handle_endtag]
      split <;> rfl
    | startEndTag tag attrs =>
      simp only [sanStep, handle_startendtag]
      rw [if_pos (Or.inl (by simp))]
    | data s =>
      simp only [sanStep, handle_data]
      rw [if_pos (by simp)]
    | entityRef name =>
      simp only [sanStep, handle_entityref]
      rw [if_pos (by simp)]
    | charRef name =>
      simp only [sanStep, handle_charref]
      rw [if_pos (by simp)]
    | comment s => rfl

lemma sanStep_skip_pop_iff (ps : List String) (t : String) (rest : List String)
    (ev : HEvent) :
    (sanStep ⟨ps, t :: rest⟩ ev).skipStack = rest ↔ ev = HEvent.endTag t := by
  cases ev with
  | startTag tag attrs =>
    simp only [sanStep, handle_starttag]
    rw [if_pos (by simp)]
    constructor
    · intro h
      exfalso
      split at h <;>
        · have := congrArg List.length h
          simp at this <;> omega
    · intro h
      cases h
  | endTag tag =>
    simp only [sanStep, handle_endtag]
    by_cases htag : tag = t
    · subst htag
      simp
    · rw [if_neg htag]
      constructor
      · intro h
        exfalso
        have := congrArg List.length h
        simp at this
      · intro h
        injection h with h'
        exact absurd h' htag
  | startEndTag tag attrs =>
    simp only [sanStep, handle_startendtag]
    rw [if_pos (Or.inl (by simp))]
    constructor
    · intro h
      exfalso
      have := congrArg List.length h
      simp at this
    · intro h
      cases h
  | data s =>
    simp only [sanStep, handle_data]
    rw [if_pos (by simp)]
    constructor
    · intro h
      exfalso
      have := congrArg List.length h
      simp at this
    · intro h
      cases h
  | entityRef name =>
    simp only [sanStep, handle_entityref]
    rw [if_pos (by simp)]
    constructor
    · intro h
      exfalso
      have := congrArg List.length h
      simp at this
    · intro h
      cases h
  | charRef name =>
    simp only [sanStep, handle_charref]
    rw [if_pos (by simp)]
    constructor
    · intro h
      exfalso
      have := congrArg List.length h
      simp at this
    · intro h
      cases h
  | comment s =>
    simp only [sanStep]
    constructor
    · intro h
      exfalso
      have := congrArg List.length h
      simp at this
    · intro h
      cases h

lemma sanStep_push (st : SanState) (f : String) (attrs : List (String × Option String))
    (h : st.skipStack ≠ []) (hf : f ∈ FORBIDDEN_TAGS) :
    (sanStep st (HEvent.startTag f attrs)).skipStack = f :: st.skipStack := by
  simp [sanStep, handle_starttag, h, hf]

lemma runEvents_parts_of_skip (evs : List HEvent) (st : SanState)
    (h0 : st.skipStack ≠ [])
    (hall : ∀ n, n ≤ evs.length → (runEvents st (evs.take n)).skipStack ≠ []) :
    (runEvents st evs).parts = st.parts := by
  induction evs generalizing st with
  | nil => rfl
  | cons ev evs ih =>
    have h1 : (sanStep st ev).skipStack ≠ [] := by
      have := hall 1 (by simp)
      simpa [runEvents] using this
    have h2 : (runEvents (sanStep st ev) evs).parts = (sanStep st ev).parts := by
      refine ih (sanStep st ev) h1 ?_
      intro n hn
      have := hall (n + 1) (by simpa using Nat.succ_le_succ hn)
      simpa [runEvents, List.take_succ_cons] using this
    calc (runEvents st (ev :: evs)).parts
        = (runEvents (sanStep st ev) evs).parts := by simp [runEvents]
      _ = (sanStep st ev).parts := h2
      _ = st.parts := sanStep_parts_of_skip st ev h0

/-- C1: while the suppression stack is non-empty the sanitizer emits
nothing for any event (text, tags, entity and character references
alike); the stack shrinks to its tail exactly on the end tag matching
the specific forbidden element on top of it; a forbidden open tag seen
while suppressing is pushed onto the stack; and a whole event stream
processed entirely under a non-empty suppression stack leaves the
emitted parts untouched. -/
theorem sanitizer_forbidden_suppression :
    (∀ (st : SanState) (ev : HEvent), st.skipStack ≠ [] →
      (sanStep st ev).parts = st.parts)
    ∧ (∀ (st : SanState) (t : String) (rest : List String) (ev : HEvent),
        st.skipStack = t :: rest →
        ((sanStep st ev).skipStack = rest ↔ ev = HEvent.endTag t))
    ∧ (∀ (st : SanState) (f : String) (attrs : List (String × Option String)),
        st.skipStack ≠ [] → f ∈ FORBIDDEN_TAGS →
        (sanStep st (HEvent.startTag f attrs)).skipStack = f :: st.skipStack)
    ∧ (∀ (evs : List HEvent) (st : SanState), st.skipStack ≠ [] →
        (∀ n, n ≤ evs.length → (runEvents st (evs.take n)).skipStack ≠ []) →
        (runEvents st evs).parts = st.parts) := by
  refine ⟨sanStep_parts_of_skip, ?_, sanStep_push, runEvents_parts_of_skip⟩
  intro st t rest ev h
  obtain ⟨ps, stack⟩ := st
  simp only at h
  subst h
  exact sanStep_skip_pop_iff ps t rest ev

/-- C1 (witness): each suppression property at concrete states and a
concrete stream containing a nested forbidden open of the same name. -/
theorem sanitizer_forbidden_suppression_witness :
    (sanStep ⟨["x"], ["script"]⟩ (HEvent.data "evil")).parts = ["x"]
    ∧ ((sanStep ⟨[], ["script"]⟩ (HEvent.endTag "script")).skipStack = []
        ↔ HEvent.endTag "script" = HEvent.endTag "script")
    ∧ (sanStep ⟨[], ["style"]⟩ (HEvent.startTag "script" [])).skipStack
        = ["script", "style"]
    ∧ (runEvents ⟨[], ["script"]⟩
        [HEvent.data "a", HEvent.startTag "script" [], HEvent.endTag "script",
          HEvent.charRef "65"]).parts = [] := by
  refine ⟨?_, ?_, ?_, ?_⟩
  · exact sanitizer_forbidden_suppression.1 ⟨["x"], ["script"]⟩ (HEvent.data "evil")
      (by decide)
  · exact sanitizer_forbidden_suppression.2.1 ⟨[], ["script"]⟩ "script" []
      (HEvent.endTag "script") rfl
  · exact sanitizer_forbidden_suppression.2.2.1 ⟨[], ["style"]⟩ "script" []
      (by decide) (by decide)
  · exact sanitizer_forbidden_suppression.2.2.2
      [HEvent.data "a", HEvent.startTag "script" [], HEvent.endTag "script",
        HEvent.charRef "65"] ⟨[], ["script"]⟩ (by decide) (by decide)

/-! ### C2 — attribute filtering -/

lemma attrFilterStep_eq (acc : List (String × String)) (p : String × Option String) :
    attrFilterStep acc p = acc ++ (match p.2 with
      | none => []
      | some v => if keepableAttr p.1 v then [(p.1, v)] else []) := by
  rcases p with ⟨name, v?⟩
  cases v? with
  | none => simp [attrFilterStep]
  | some v =>
    simp only [attrFilterStep]
    by_cases h1 : pyStartsWith (pyLower name) "on" = true
    · simp [h1, keepableAttr]
    · by_cases h2 : (pyLower name = "href" ∨ pyLower name = "src")
          ∧ pyStartsWith (pyLower v) "javascript:" = true
      · simp [h1, h2, keepableAttr]
      · by_cases h3 : pyLower name = "style"
        · simp [h1, h2, h3, keepableAttr]
        · simp [h1, h2, h3, keepableAttr]

lemma safe_attrs_foldl_eq (attrs : List (String × Option String))
    (acc : List (String × String)) :
    attrs.foldl attrFilterStep acc = acc ++ attrs.filterMap (fun p =>
      match p.2 with
      | none => none
      | some v => if keepableAttr p.1 v then some (p.1, v) else none) := by
  induction attrs generalizing acc with
  | nil => simp
  | cons a l ih =>
    simp only [List.foldl_cons, List.filterMap_cons]
    rw [attrFilterStep_eq, ih]
    rcases a with ⟨name, v?⟩
    cases v? with
    | none => simp
    | some v =>
      by_cases h : keepableAttr name v
      · simp [h]
      · simp [h]

/-- C2 (counterexample): a value-less attribute (`<p data-x>` gives the
pair `("data-x", None)`) falls in none of the claim's drop categories —
its name does not start with `on`, is not `href`/`src`/`style` — yet
the sanitizer drops it entirely instead of keeping it. -/
theorem attr_valueless_counterexample :
    pyStartsWith (pyLower "data-x") "on" = false
    ∧ pyLower "data-x" ≠ "style"
    ∧ pyLower "data-x" ≠ "href"
    ∧ pyLower "data-x" ≠ "src"
    ∧ safe_attrs [("data-x", none)] = []
    ∧ attr_text [("data-x", none)] = "" :=
  ⟨by decide, by decide, by decide, by decide, rfl, rfl⟩

/-- C2 (amended): among attributes that carry a value, exactly those in
the claim's three drop categories are removed (`on*` names,
`javascript:`-valued `href`/`src`, `style`) and every other one is kept
in order and re-serialized with its value HTML-escaped with quote
escaping; value-less attributes are dropped.  The final conjunct shows
quote escaping on a concrete value. -/
theorem safe_attrs_amended :
    (∀ attrs : List (String × Option String),
      safe_attrs attrs = attrs.filterMap (fun p =>
        match p.2 with
        | none => none
        | some v => if keepableAttr p.1 v then some (p.1, v) else none))
    ∧ (∀ attrs : List (String × Option String),
      attr_text attrs = String.join ((attrs.filterMap (fun p =>
        match p.2 with
        | none => none
        | some v => if keepableAttr p.1 v then some (p.1, v) else none)).map
          (fun p => " " ++ p.1 ++ "=\"" ++ html_escape p.2 true ++ "\"")))
    ∧ attr_text [("onclick", some "f()"), ("href", some "JavaScript:x"),
        ("STYLE", some "c"), ("class", some "a\"b")] = " class=\"a&quot;b\"" := by
  refine ⟨?_, ?_, by decide⟩
  · intro attrs
    simpa using safe_attrs_foldl_eq attrs []
  · intro attrs
    unfold attr_text
    rw [show safe_attrs attrs = _ from by simpa using safe_attrs_foldl_eq attrs []]

/-! ### C7 — first-occurrence substitution -/

lemma startsWithL_iff (pat : List Char) :
    ∀ l : List Char, startsWithL pat l = true ↔ ∃ rest, l = pat ++ rest := by
  induction pat with
  | nil =>
    intro l
    simp [startsWithL]
  | cons p ps ih =>
    intro l
    cases l with
    | nil => simp [startsWithL]
    | cons c cs =>
      simp only [startsWithL]
      by_cases hpc : p = c
      · subst hpc
        simp [ih]
      · simp only [hpc, if_false, List.cons_append, List.cons.injEq]
        constructor
        · intro h
          exact absurd h (by simp)
        · rintro ⟨rest, hc, -⟩
          exact absurd hc.symm hpc

lemma findSplit_some (pat : List Char) :
    ∀ text pre post : List Char, findSplit pat text = some (pre, post) →
      text = pre ++ pat ++ post := by
  intro text
  induction text with
  | nil =>
    intro pre post h
    simp only [findSplit] at h
    split at h
    · rename_i hs
      injection h with h'
      injection h' with ha hb
      rcases (startsWithL_iff pat []).mp hs with ⟨rest, hr⟩
      rcases List.append_eq_nil.mp hr.symm with ⟨hp, -⟩
      simp [← ha, ← hb, hp]
    · exact absurd h (by simp)
  | cons c cs ih =>
    intro pre post h
    simp only [findSplit] at h
    split at h
    · rename_i hs
      injection h with h'
      injection h' with ha hb
      rcases (startsWithL_iff pat (c :: cs)).mp hs with ⟨rest, hr⟩
      rw [← ha, ← hb, hr, List.nil_append, List.drop_left]
    · rename_i hs
      rw [Option.map_eq_some'] at h
      obtain ⟨⟨p1, p2⟩, hfs, heq⟩ := h
      injection heq with ha hb
      subst ha hb
      have hcs := ih p1 p2 hfs
      simp [hcs]

lemma findSplit_none (pat : List Char) :
    ∀ text : List Char, findSplit pat text = none →
      ∀ pre post, text ≠ pre ++ pat ++ post := by
  intro text
  induction text with
  | nil =>
    intro h pre post heq
    simp only [findSplit] at h
    split at h
    · exact absurd h (by simp)
    · rename_i hs
      rcases List.append_eq_nil.mp (List.append_eq_nil.mp heq.symm).1 with ⟨-, hp⟩
      exact hs ((startsWithL_iff pat []).mpr ⟨[], by simp [hp]⟩)
  | cons c cs ih =>
    intro h pre post heq
    simp only [findSplit] at h
    split at h
    · exact absurd h (by simp)
    · rename_i hs
      rw [Option.map_eq_none'] at h
      cases pre with
      | nil =>
        rw [List.nil_append] at heq
        exact hs ((startsWithL_iff pat (c :: cs)).mpr ⟨post, heq⟩)
      | cons q pre' =>
        simp only [List.cons_append, List.cons.injEq] at heq
        exact ih h pre' post heq.2

lemma findSplit_minimal (pat : List Char) :
    ∀ text pre post : List Char, findSplit pat text = some (pre, post) →
      ∀ pre' post', text = pre' ++ pat ++ post' → pre.length ≤ pre'.length := by
  intro text
  induction text with
  | nil =>
    intro pre post h pre' post' heq
    simp only [findSplit] at h
    split at h
    · injection h with h'
      injection h' with ha hb
      rw [← ha]
      exact Nat.zero_le _
    · exact absurd h (by simp)
  | cons c cs ih =>
    intro pre post h pre' post' heq
    simp only [findSplit] at h
    split at h
    · injection h with h'
      injection h' with ha hb
      rw [← ha]
      exact Nat.zero_le _
    · rename_i hs
      rw [Option.map_eq_some'] at h
      obtain ⟨⟨p1, p2⟩, hfs, heq2⟩ := h
      injection heq2 with ha hb
      subst ha hb
      cases pre' with
      | nil =>
        exfalso
        rw [List.nil_append] at heq
        exact hs ((startsWithL_iff pat (c :: cs)).mpr ⟨post', heq⟩)
      | cons q pre'' =>
        simp only [List.cons_append, List.cons.injEq] at heq
        have := ih p1 p2 hfs pre'' post' heq.2
        simpa using Nat.succ_le_succ this

/-- C7: the anchor substitution replaces exactly the first occurrence
of its pattern — when the pattern occurs, the output is the input with
only the leftmost occurrence (no earlier decomposition exists) replaced
— and when the pattern does not occur anywhere in the template, the
substitution returns the template unchanged, never an error. -/
theorem replace_first_spec :
    (∀ pat repl text : List Char,
      (∀ pre post, text ≠ pre ++ pat ++ post) → replaceFirst pat repl text = text)
    ∧ (∀ pat repl text pre post : List Char, findSplit pat text = some (pre, post) →
        text = pre ++ pat ++ post
        ∧ replaceFirst pat repl text = pre ++ repl ++ post
        ∧ ∀ pre' post', text = pre' ++ pat ++ post' → pre.length ≤ pre'.length)
    ∧ (∀ pattern repl text : String, findSplit pattern.data text.data = none →
        re_sub_first pattern repl text = text) := by
  refine ⟨?_, ?_, ?_⟩
  · intro pat repl text hno
    unfold replaceFirst
    cases h : findSplit pat text with
    | none => rfl
    | some pr =>
      exact absurd (findSplit_some pat text pr.1 pr.2 (by rw [h])) (hno pr.1 pr.2)
  · intro pat repl text pre post h
    refine ⟨findSplit_some pat text pre post h, ?_,
      findSplit_minimal pat text pre post h⟩
    unfold replaceFirst
    rw [h]
  · intro pattern repl text h
    unfold re_sub_first replaceFirst
    rw [h]

/-- C7 (witness): a no-occurrence no-op and a first-occurrence
replacement on concrete character lists. -/
theorem replace_first_spec_witness :
    replaceFirst ['x'] ['Z'] ['a', 'b'] = ['a', 'b']
    ∧ (['x', 'a', 'y', 'a'] : List Char) = ['x'] ++ ['a'] ++ ['y', 'a']
    ∧ replaceFirst ['a'] ['Z'] ['x', 'a', 'y', 'a'] = ['x'] ++ ['Z'] ++ ['y', 'a'] := by
  refine ⟨?_, ?_, ?_⟩
  · apply replace_first_spec.1
    intro pre post h
    have hx : ('x' : Char) ∈ pre ++ ['x'] ++ post := by simp
    rw [← h] at hx
    exact absurd hx (by decide)
  · exact (replace_first_spec.2.1 ['a'] ['Z'] ['x', 'a', 'y', 'a'] ['x'] ['y', 'a']
      (by decide)).1
  · exact (replace_first_spec.2.1 ['a'] ['Z'] ['x', 'a', 'y', 'a'] ['x'] ['y', 'a']
      (by decide)).2.1

/-! ### C8 — tag-search visibility toggle -/

/-- C8: when no episode contributes a keyword the document is left
untouched, so the tag-search section keeps its hidden default; when the
global keyword set is non-empty and the hidden anchor occurs, its first
occurrence is replaced by the same element without the `hidden`
attribute (and when the anchor is absent the toggle is a no-op). -/
theorem tag_search_toggle_spec :
    (∀ template : String, toggle_tag_search [] template = template)
    ∧ (∀ (kws : List String) (template : String) (pre post : List Char),
        kws ≠ [] →
        findSplit TAG_SEARCH_HIDDEN.data template.data = some (pre, post) →
        template.data = pre ++ TAG_SEARCH_HIDDEN.data ++ post
        ∧ (toggle_tag_search kws template).data
            = pre ++ TAG_SEARCH_VISIBLE.data ++ post)
    ∧ (∀ (kws : List String) (template : String),
        findSplit TAG_SEARCH_HIDDEN.data template.data = none →
        toggle_tag_search kws template = template) := by
  refine ⟨?_, ?_, ?_⟩
  · intro template
    simp [toggle_tag_search]
  · intro kws template pre post hk h
    refine ⟨findSplit_some _ _ _ _ h, ?_⟩
    unfold toggle_tag_search re_sub_first replaceFirst
    rw [if_pos hk, h]
  · intro kws template h
    unfold toggle_tag_search re_sub_first replaceFirst
    split
    · rw [h]
    · rfl

/-- C8 (witness): the toggle on a concrete template containing the
hidden anchor once, with a non-empty keyword set. -/
theorem tag_search_toggle_spec_witness :
    ("<p>" ++ TAG_SEARCH_HIDDEN ++ "</p>" : String).data
        = "<p>".data ++ TAG_SEARCH_HIDDEN.data ++ "</p>".data
    ∧ (toggle_tag_search ["a"] ("<p>" ++ TAG_SEARCH_HIDDEN ++ "</p>")).data
        = "<p>".data ++ TAG_SEARCH_VISIBLE.data ++ "</p>".data :=
  tag_search_toggle_spec.2.1 ["a"] ("<p>" ++ TAG_SEARCH_HIDDEN ++ "</p>")
    "<p>".data "</p>".data (by decide) (by decide)

/-! ### C9 — year dependence of the output -/

/-- C9 (counterexample): two runs on the same input template differ
when the current Taipei year differs — the output is not a function of
the input files alone, because line 350 feeds the wall clock into the
copyright substitution. -/
theorem copyright_year_counterexample :
    substCopyright 2025 "© <span id=\"copyright-year\">2024</span>"
      ≠ substCopyright 2026 "© <span id=\"copyright-year\">2024</span>" := by
  decide

/-- C9 (amended): the generated document is a deterministic function of
the inputs and the current Taipei year; the year enters only through
the copyright substitution, so templates without a copyright anchor
yield year-independent output, and when the anchor matches, the output
differs from the input exactly in that region, which becomes
`© <current year>`. -/
theorem copyright_subst_amended :
    (∀ (text : String) (y₁ y₂ : Nat), matchCopyright text.data = none →
        substCopyright y₁ text = substCopyright y₂ text)
    ∧ (∀ (text : String) (y : Nat) (pre post : List Char),
        matchCopyright text.data = some (pre, post) →
        (substCopyright y text).data = pre ++ ("© " ++ toString y).data ++ post) := by
  constructor
  · intro text y₁ y₂ h
    unfold substCopyright
    rw [h]
  · intro text y pre post h
    unfold substCopyright
    rw [h]

/-- C9 (witness): year-independence without an anchor, and the
replaced region with one. -/
theorem copyright_subst_amended_witness :
    substCopyright 2025 "no anchor" = substCopyright 2026 "no anchor"
    ∧ (substCopyright 2025 "© <span id=\"copyright-year\">old</span>").data
        = [] ++ ("© " ++ toString 2025).data ++ [] := by
  constructor
  · exact copyright_subst_amended.1 "no anchor" 2025 2026 (by decide)
  · exact copyright_subst_amended.2 "© <span id=\"copyright-year\">old</span>" 2025
      [] [] (by decide)

end GenerateIndex2
